import Mathlib

/-!
Verification model of the webpage-archiver extension.

Shallow embedding of the capture orchestrator (`src/background/service-worker.js`),
the incremental raster compositor and paginating document renderer
(`src/offscreen/offscreen.js`), and the tile source (`src/content/content-script.js`).

Numbers that are JavaScript floats in the source (device pixel ratio, scroll
offsets, millimetre page sizes) are modelled as exact rationals `ℚ`; DOM pixel
dimensions (scrollHeight, viewport sizes) are natural numbers; canvas
dimensions are integers.  Host primitives (URL parsing, `chrome.tabs` calls,
the browser scroll clamp) are modelled as oracle parameters or by their
documented semantics, as noted at each definition.
-/

namespace WebpageArchiver

/-- JavaScript `Math.round`: round half toward positive infinity. -/
def jsRound (q : ℚ) : ℤ := ⌊q + 1 / 2⌋

/- ── File naming (`service-worker.js` lines 17–53) ───────────────────────── -/

/-- The characters removed by `sanitizeFilename`'s first regex
`/[<>:"\/\\|?*\x00-\x1f]/g`: the nine listed punctuation characters plus the
C0 control range. -/
def isIllegalFilenameChar (c : Char) : Bool :=
  c = '<' || c = '>' || c = ':' || c = '"' || c = '/' || c = '\\' ||
  c = '|' || c = '?' || c = '*' || c.toNat ≤ 0x1f

/-- The character class `\s` of JavaScript regular expressions (which is also
exactly the set removed by `String.prototype.trim`). -/
def isJsSpace (c : Char) : Bool :=
  let n := c.toNat
  n = 0x9 || n = 0xa || n = 0xb || n = 0xc || n = 0xd || n = 0x20 ||
  n = 0xa0 || n = 0x1680 || (0x2000 ≤ n && n ≤ 0x200a) ||
  n = 0x2028 || n = 0x2029 || n = 0x202f || n = 0x205f ||
  n = 0x3000 || n = 0xfeff

/-- `.replace(/\s+/g, '-')`: every maximal run of whitespace becomes a single
hyphen.  The boolean state records whether the previous character was
whitespace (i.e. whether we are inside a run that already emitted its
hyphen). -/
def collapseWsAux : Bool → List Char → List Char
  | _, [] => []
  | prevSpace, c :: rest =>
    if isJsSpace c then
      if prevSpace then collapseWsAux true rest
      else '-' :: collapseWsAux true rest
    else c :: collapseWsAux false rest

/-- `String.prototype.trim`: drop leading and trailing whitespace. -/
def jsTrim (l : List Char) : List Char :=
  ((l.dropWhile isJsSpace).reverse.dropWhile isJsSpace).reverse

/-- `sanitizeFilename` (`service-worker.js` lines 17–23): strip illegal
characters, collapse whitespace runs to `-`, trim, truncate to 120
characters. -/
def sanitizeFilename (s : String) : String :=
  ⟨(jsTrim (collapseWsAux false (s.data.filter fun c => !isIllegalFilenameChar c))).take 120⟩

/-- JavaScript `String.prototype.replace` with a plain-string pattern:
replace the first occurrence only.  (The `$`-escape forms in the replacement
string are not used by the program and are not modelled.) -/
def replaceFirstAux (pat repl : List Char) : List Char → List Char
  | [] => if pat.isPrefixOf ([] : List Char) then repl else []
  | c :: rest =>
    if pat.isPrefixOf (c :: rest) then repl ++ (c :: rest).drop pat.length
    else c :: replaceFirstAux pat repl rest

/-- `s.replace(pat, repl)` for string patterns. -/
def replaceFirst (s pat repl : String) : String :=
  ⟨replaceFirstAux pat.data repl.data s.data⟩

/-- The default filename pattern from the storage defaults. -/
def defaultFilenamePattern : String := "{date}_{hostname}_{title}"

/-- `hostname.replace(/^www\./, '')`. -/
def stripWww (h : String) : String :=
  if "www.".data.isPrefixOf h.data then ⟨h.data.drop 4⟩ else h

/-- `buildFilename` (`service-worker.js` lines 25–53).  `pattern` and
`subfolder` stand for the stored preferences, `dateStr` for
`new Date().toISOString().slice(0, 10)`, `timestamp` for `Date.now()`.
`urlHostname` is the result of the host primitive `new URL(pageUrl).hostname`:
`none` models the constructor throwing on an unparseable URL, which the
`catch` turns into the literal hostname `"unknown"`.  An empty `pageTitle` is
falsy in `pageTitle || 'untitled'`. -/
def buildFilename (pattern subfolder dateStr : String) (timestamp : ℕ)
    (pageTitle : String) (urlHostname : Option String) (ext : String) : String :=
  let hostname : String :=
    match urlHostname with
    | some h => stripWww h
    | none => "unknown"
  let title := sanitizeFilename (if pageTitle = "" then "untitled" else pageTitle)
  let name :=
    replaceFirst
      (replaceFirst
        (replaceFirst
          (replaceFirst pattern "{date}" dateStr)
          "{hostname}" hostname)
        "{title}" title)
      "{timestamp}" (toString timestamp)
  let name := sanitizeFilename name ++ "." ++ ext
  if subfolder = "" then name else subfolder ++ "/" ++ name

/- ── Incremental compositor (`offscreen.js` lines 20–71) ─────────────────── -/

/-- A decoded raster image (the result of `loadImage` on a tile's data URL):
its pixel dimensions and a colour value for each coordinate. -/
structure Img where
  width : ℤ
  height : ℤ
  pix : ℤ → ℤ → ℕ

/-- An `OffscreenCanvas` together with its 2d context's pixel contents.
A freshly constructed canvas is transparent black (colour `0`). -/
structure Canvas where
  width : ℤ
  height : ℤ
  pix : ℤ → ℤ → ℕ

/-- `new OffscreenCanvas(w, h)`. -/
def newCanvas (w h : ℤ) : Canvas := ⟨w, h, fun _ _ => 0⟩

/-- `ctx.drawImage(img, 0, 0, img.width, drawHeight, 0, destY, img.width,
drawHeight)`: copy the top `drawHeight` rows of `img` onto the canvas
starting at row `destY` (clipped to the canvas bounds, as the 2d context
does). -/
def drawImageAt (c : Canvas) (img : Img) (drawHeight destY : ℤ) : Canvas :=
  { c with
    pix := fun x y =>
      if 0 ≤ x ∧ x < img.width ∧ destY ≤ y ∧ y < destY + drawHeight ∧
          x < c.width ∧ 0 ≤ y ∧ y < c.height then
        img.pix x (y - destY)
      else c.pix x y }

/-- The incremental stitch state after `stitch-init`: the canvas plus the
stored device pixel ratio. -/
structure StitchState where
  canvas : Canvas
  dpr : ℚ

/-- The `stitch-init` handler (`offscreen.js` lines 34–42):
`stitchDpr = msg.devicePixelRatio || 1` (a falsy, i.e. zero, ratio defaults
to 1), canvas width `Math.round(viewportWidth·dpr)`, canvas height
`Math.min(Math.round(totalHeight·dpr), 32000)`.  The message also carries
`viewportHeight`, which the handler does not use. -/
def stitchInit (viewportWidth viewportHeight totalHeight dpr0 : ℚ) : StitchState :=
  let _ := viewportHeight
  let dpr := if dpr0 = 0 then 1 else dpr0
  { canvas := newCanvas (jsRound (viewportWidth * dpr))
      (min (jsRound (totalHeight * dpr)) 32000)
    dpr := dpr }

/-- The `stitch-add-capture` handler (`offscreen.js` lines 44–54):
`destY = Math.round(scrollY·dpr)`; if `canvas.height − destY > 0` draw the
tile clamped to `min(img.height, remainingHeight)`, otherwise do nothing. -/
def stitchAddCapture (s : StitchState) (img : Img) (scrollY : ℚ) : StitchState :=
  let destY := jsRound (scrollY * s.dpr)
  let remainingHeight := s.canvas.height - destY
  if 0 < remainingHeight then
    let drawHeight := min img.height remainingHeight
    { s with canvas := drawImageAt s.canvas img drawHeight destY }
  else s

/-- `stitch-finalize` encodes the canvas into a PNG; the resulting image has
the canvas's dimensions and pixels. -/
def canvasToImg (c : Canvas) : Img := ⟨c.width, c.height, c.pix⟩

/- ── Document renderer (`offscreen.js` lines 115–198) ────────────────────── -/

/-- The jsPDF document as far as the model observes it: the number of pages
(a fresh `jsPDF` document starts with one page; `addPage` adds one) and the
source-pixel heights of the image bands placed by `addImage`, in order. -/
structure PdfDoc where
  pages : ℕ
  bands : List ℚ
deriving DecidableEq

/-- One iteration of the page-slicing loop in `generatePdf`
(`offscreen.js` lines 155–170): `addPage` when `page > 0`, then slice the
band `srcY = page · pageHeightPx`, `srcH = min(pageHeightPx, imgHeight −
srcY)` and place it. -/
def pdfStep (imgWidth imgHeight : ℤ) (doc : PdfDoc) (page : ℕ) : PdfDoc :=
  let doc' := if 0 < page then { doc with pages := doc.pages + 1 } else doc
  let pageHeightPx : ℚ := 297 / 210 * (imgWidth : ℚ)
  let srcY : ℚ := (page : ℚ) * pageHeightPx
  let srcH : ℚ := min pageHeightPx ((imgHeight : ℚ) - srcY)
  { doc' with bands := doc'.bands ++ [srcH] }

/-- `generatePdf` with a cached screenshot (`offscreen.js` lines 122–173):
`pdfHeightMm = imgHeight/imgWidth · 210`, `totalPages = ceil(pdfHeightMm /
297)`; a single page places the whole image, otherwise the loop slices
`totalPages` bands of `pageHeightPx = 297/210 · imgWidth` source pixels. -/
def generatePdf (imgWidth imgHeight : ℤ) : PdfDoc :=
  let pdfWidthMm : ℚ := 210
  let pdfHeightMm : ℚ := (imgHeight : ℚ) / (imgWidth : ℚ) * pdfWidthMm
  let maxPageHeightMm : ℚ := 297
  let totalPages : ℤ := ⌈pdfHeightMm / maxPageHeightMm⌉
  if totalPages = 1 then { pages := 1, bands := [(imgHeight : ℚ)] }
  else
    (List.range totalPages.toNat).foldl (pdfStep imgWidth imgHeight)
      { pages := 1, bands := [] }

/-- The two shapes of document `generate-pdf` can produce: one rendered from
the cached composite, or the text-only fallback page
(`generateTextPdf`, `offscreen.js` lines 179–198). -/
inductive PdfResult
  | imagePdf (doc : PdfDoc)
  | textPdf (title url : String)
deriving DecidableEq

/- ── Offscreen message handler (`offscreen.js` lines 28–100) ─────────────── -/

/-- The offscreen document's module state: the cached screenshot slot
(`cachedScreenshotBlob`) and the incremental stitch state
(`stitchCanvas`/`stitchCtx`/`stitchDpr`). -/
structure OffState where
  cached : Option Img
  stitch : Option StitchState

/-- The port messages the offscreen handler dispatches on.  Raster payloads
arrive as data URLs in the source; the model carries the decoded image. -/
inductive OffMsg
  | stitchInitMsg (vw vh th dpr : ℚ)
  | stitchAddMsg (img : Img) (scrollY : ℚ)
  | stitchFinalizeMsg
  | cacheScreenshotMsg (img : Img)
  | generatePdfMsg (title url : String)

/-- The reply posted back on the port for one message. -/
inductive OffReply
  | ok
  | imageHandle (img : Img)
  | pdfHandle (r : PdfResult)
  | errorReply (e : String)

/-- The port `onMessage` listener (`offscreen.js` lines 31–99).  `exn`
injects a failure of one of the awaited host operations inside the `try`
(image decode, canvas encode, jsPDF): when it is `some e` the `catch` runs,
which clears `cachedScreenshotBlob` and replies with the error.  A
`stitch-add-capture` or `stitch-finalize` arriving with no stitch canvas
throws a TypeError in the source (null dereference), which the same `catch`
turns into an error reply. -/
def handleOffMsg (s : OffState) (m : OffMsg) (exn : Option String) :
    OffState × OffReply :=
  match exn with
  | some e => ({ s with cached := none }, .errorReply e)
  | none =>
    match m with
    | .stitchInitMsg vw vh th dpr =>
      ({ s with stitch := some (stitchInit vw vh th dpr) }, .ok)
    | .stitchAddMsg img y =>
      match s.stitch with
      | some st => ({ s with stitch := some (stitchAddCapture st img y) }, .ok)
      | none => ({ s with cached := none }, .errorReply "stitchCanvas is null")
    | .stitchFinalizeMsg =>
      match s.stitch with
      | some st =>
        ({ cached := some (canvasToImg st.canvas), stitch := none },
          .imageHandle (canvasToImg st.canvas))
      | none => ({ s with cached := none }, .errorReply "stitchCanvas is null")
    | .cacheScreenshotMsg img => ({ s with cached := some img }, .ok)
    | .generatePdfMsg title url =>
      match s.cached with
      | some img =>
        ({ s with cached := none },
          .pdfHandle (.imagePdf (generatePdf img.width img.height)))
      | none => ({ s with cached := none }, .pdfHandle (.textPdf title url))

/-- Run a sequence of messages (each with its injected-failure flag) through
the handler, keeping only the final state. -/
def runOffMsgs (s : OffState) : List (OffMsg × Option String) → OffState
  | [] => s
  | (m, e) :: rest => runOffMsgs (handleOffMsg s m e).1 rest

/-- Does the message (re)fill the cached-screenshot slot?  Only
`stitch-finalize` and `cache-screenshot` do. -/
def isCaptureMsg : OffMsg → Bool
  | .stitchFinalizeMsg => true
  | .cacheScreenshotMsg _ => true
  | _ => false

/- ── Tile source (`content-script.js` lines 249–272) ─────────────────────── -/

/-- `scrollToPosition` (`content-script.js` lines 265–272) composed with the
browser's scroll semantics: `window.scrollTo` clamps the requested offset to
the maximum scroll position `scrollHeight − viewportHeight`, and the
function returns the resulting `window.scrollY`. -/
def scrollToPosition (scrollHeight viewportHeight y : ℕ) : ℕ :=
  min y (scrollHeight - viewportHeight)

/- ── Capture loop offsets (`service-worker.js` lines 162–193) ────────────── -/

/-- The requested scroll offsets of the capture loop:
`currentY = 0; while (currentY < scrollHeight) { …; currentY +=
viewportHeight }`.  Produces the list of `currentY` values at which a
scroll-capture cycle runs. -/
def captureOffsetsLoop (scrollHeight viewportHeight y : ℕ) : List ℕ :=
  if _h : y < scrollHeight ∧ 0 < viewportHeight then
    y :: captureOffsetsLoop scrollHeight viewportHeight (y + viewportHeight)
  else []
termination_by scrollHeight - y
decreasing_by omega

/- ── Rate-limited tile capture (`service-worker.js` lines 171–184) ───────── -/

/-- The outcome of one `chrome.tabs.captureVisibleTab` call: a data URL, or a
rejection with an error message. -/
inductive CapAttempt
  | ok (dataUrl : String)
  | err (msg : String)
deriving DecidableEq

/-- The rate-limit marker the retry loop tests for with
`err.message?.includes(…)`. -/
def rateLimitToken : String := "MAX_CAPTURE_VISIBLE_TAB_CALLS_PER_SECOND"

/-- JavaScript `String.prototype.includes`: substring containment. -/
def strIncludes (s pat : String) : Bool := decide (pat.data <:+: s.data)

/-- `err.message?.includes(rateLimitToken)`. -/
def isRateLimitMsg (m : String) : Bool := strIncludes m rateLimitToken

/-- What the retry loop produced: the tile's data URL or the propagated
error, how many `captureVisibleTab` attempts were made, and how many backoff
delays (the 1000 ms waits before a retry) were taken. -/
structure RetryResult where
  result : Except String String
  attempts : ℕ
  backoffs : ℕ

/-- The retry loop `for (let attempt = 0; attempt < 3; attempt++)`
(`service-worker.js` lines 173–184).  `f k` is the outcome of the `k`-th
`captureVisibleTab` call for this tile.  A success breaks out; a rate-limit
failure with `attempt < 2` waits and retries; any other failure (or the
third rate-limit failure) is thrown. -/
def captureWithRetry (f : ℕ → CapAttempt) (attempt : ℕ) : RetryResult :=
  match f attempt with
  | .ok d => { result := .ok d, attempts := attempt + 1, backoffs := attempt }
  | .err m =>
    if h : attempt < 2 ∧ isRateLimitMsg m then
      captureWithRetry f (attempt + 1)
    else { result := .error m, attempts := attempt + 1, backoffs := attempt }
termination_by 3 - attempt
decreasing_by omega

/- ── Full-page capture control flow (`service-worker.js` lines 132–206) ──── -/

/-- The environment of host calls `captureFullPageScreenshot` makes, as a
response oracle: `scrollResp i y` is the response to the `i`-th `scroll-to`
message (requesting offset `y`) — the actual `scrollY`, or a rejection —
and `capResp n` is the outcome of the `n`-th `captureVisibleTab` call.
Every awaited offscreen send can also reject (the offscreen handler replies
with an error when one of its own awaited operations throws, which rejects
`sendOffscreenMessage`): `initResp` answers the `stitch-init` send,
`addResp i` the `stitch-add-capture` send for tile `i` (e.g. `loadImage`
failed), `cacheResp` the fast path's `cache-screenshot` send, and
`finalizeResp` the `stitch-finalize` send — the blob URL, or a rejection
(e.g. `convertToBlob` threw). -/
structure CapEnv where
  scrollResp : ℕ → ℕ → Except String ℕ
  capResp : ℕ → CapAttempt
  initResp : Except String Unit
  addResp : ℕ → Except String Unit
  cacheResp : Except String Unit
  finalizeResp : Except String String

/-- The scroll–capture while loop (`service-worker.js` lines 162–193),
threading the scroll-call index `si` and global capture-call index `ci` and
collecting the actual scroll offsets `pos.scrollY` handed to
`stitch-add-capture`.  A rejected `scroll-to`, an exhausted retry loop, or
a rejected `stitch-add-capture` send propagates the error. -/
def capPass (env : CapEnv) (scrollHeight viewportHeight : ℕ) (y si ci : ℕ) :
    Except String (ℕ × ℕ × List ℕ) :=
  if _h : y < scrollHeight ∧ 0 < viewportHeight then
    match env.scrollResp si y with
    | .error e => .error e
    | .ok pos =>
      let r := captureWithRetry (fun a => env.capResp (ci + a)) 0
      match r.result with
      | .error e => .error e
      | .ok _ =>
        match env.addResp si with
        | .error e => .error e
        | .ok _ =>
          match capPass env scrollHeight viewportHeight (y + viewportHeight)
              (si + 1) (ci + r.attempts) with
          | .error e => .error e
          | .ok (si', ci', painted) => .ok (si', ci', pos :: painted)
  else .ok (si, ci, [])
termination_by scrollHeight - y
decreasing_by omega

/-- `captureFullPageScreenshot` (`service-worker.js` lines 132–206), reduced
to its control flow and the painted offsets.  The fast path
(`scrollHeight ≤ viewportHeight`) does a single un-retried capture followed
by an awaited `cache-screenshot` send.  The slow path awaits `stitch-init`,
runs the loop, then — with no `try`/`catch` around it — awaits a final
`scroll-to` back to offset `0`, and only then awaits `stitch-finalize`;
a rejection of any of these awaits propagates. -/
def captureFullPageScreenshot (env : CapEnv)
    (scrollHeight viewportHeight : ℕ) : Except String (List ℕ) :=
  if scrollHeight ≤ viewportHeight then
    match env.capResp 0 with
    | .ok _ =>
      match env.cacheResp with
      | .error e => .error e
      | .ok _ => .ok []
    | .err m => .error m
  else
    match env.initResp with
    | .error e => .error e
    | .ok _ =>
      match capPass env scrollHeight viewportHeight 0 0 0 with
      | .error e => .error e
      | .ok (si, _, painted) =>
        match env.scrollResp si 0 with
        | .error e => .error e
        | .ok _ =>
          match env.finalizeResp with
          | .error e => .error e
          | .ok _ => .ok painted

/- ── Delivery: per-file download loop (`service-worker.js` lines 401–452) ── -/

/-- One entry of the result list returned by `archivePage`. -/
structure ArchiveEntry where
  label : String
  success : Bool
deriving DecidableEq

/-- `file.filename.includes('/') ? file.filename.split('/').pop() :
file.filename`. -/
def basenameOf (s : String) : String :=
  match (s.data.splitOn '/').getLast? with
  | some l => ⟨l⟩
  | none => s

/-- The downgrade performed when an individual download rejects
(`service-worker.js` lines 433–439): `results.find(r =>
r.label.includes(basename) && r.success)` and, if found, set `success =
false` and append the reason to the label. -/
def downgradeFirst (basename reason : String) :
    List ArchiveEntry → List ArchiveEntry
  | [] => []
  | r :: rest =>
    if strIncludes r.label basename && r.success then
      { label := r.label ++ reason, success := false } :: rest
    else r :: downgradeFirst basename reason rest

/-- The individual-download loop (`service-worker.js` lines 420–441).  Each
file is paired with its download outcome (`none` = resolved, `some e` =
rejected with message `e`); the download method per file type does not
affect the failure handling.  The reason appended is
`· (download failed: ${err.message})`. -/
def downloadLoop (results : List ArchiveEntry) :
    List (String × Option String) → List ArchiveEntry
  | [] => results
  | (filename, outcome) :: rest =>
    match outcome with
    | none => downloadLoop results rest
    | some e =>
      downloadLoop
        (downgradeFirst (basenameOf filename)
          (" (download failed: " ++ e ++ ")") results)
        rest

/- ════════════════════════ Theorems ════════════════════════ -/

/- ── Sanitization lemmas ── -/

theorem mem_collapseWsAux {c : Char} :
    ∀ (b : Bool) (l : List Char), c ∈ collapseWsAux b l → c = '-' ∨ c ∈ l := by
  intro b l
  induction l generalizing b with
  | nil => intro h; exact absurd h (List.not_mem_nil c)
  | cons a rest ih =>
    intro h
    simp only [collapseWsAux] at h
    by_cases ha : isJsSpace a
    · simp only [ha, if_true] at h
      cases b with
      | true =>
        simp only [if_true] at h
        rcases ih true h with h' | h'
        · exact Or.inl h'
        · exact Or.inr (List.mem_cons_of_mem a h')
      | false =>
        simp only [Bool.false_eq_true, if_false, List.mem_cons] at h
        rcases h with h | h
        · exact Or.inl h
        · rcases ih true h with h' | h'
          · exact Or.inl h'
          · exact Or.inr (List.mem_cons_of_mem a h')
    · simp only [ha, Bool.false_eq_true, if_false, List.mem_cons] at h
      rcases h with h | h
      · exact Or.inr (h ▸ List.mem_cons_self a rest)
      · rcases ih false h with h' | h'
        · exact Or.inl h'
        · exact Or.inr (List.mem_cons_of_mem a h')

theorem not_space_of_mem_collapseWsAux {c : Char} :
    ∀ (b : Bool) (l : List Char), c ∈ collapseWsAux b l → isJsSpace c = false := by
  intro b l
  induction l generalizing b with
  | nil => intro h; exact absurd h (List.not_mem_nil c)
  | cons a rest ih =>
    intro h
    simp only [collapseWsAux] at h
    by_cases ha : isJsSpace a
    · simp only [ha, if_true] at h
      cases b with
      | true => exact ih true (by simpa using h)
      | false =>
        simp only [Bool.false_eq_true, if_false, List.mem_cons] at h
        rcases h with h | h
        · subst h; decide
        · exact ih true h
    · simp only [ha, Bool.false_eq_true, if_false, List.mem_cons] at h
      rcases h with h | h
      · subst h; simpa using ha
      · exact ih false h

theorem collapseWsAux_eq_self :
    ∀ l : List Char, (∀ c ∈ l, isJsSpace c = false) → collapseWsAux false l = l := by
  intro l
  induction l with
  | nil => intro _; rfl
  | cons a rest ih =>
    intro h
    have ha := h a (List.mem_cons_self a rest)
    simp only [collapseWsAux, ha, Bool.false_eq_true, if_false]
    exact congrArg (a :: ·) (ih fun c hc => h c (List.mem_cons_of_mem a hc))

theorem dropWhile_eq_self_of_not {p : Char → Bool} :
    ∀ l : List Char, (∀ c ∈ l, p c = false) → l.dropWhile p = l := by
  intro l h
  cases l with
  | nil => rfl
  | cons a rest =>
    have := h a (List.mem_cons_self a rest)
    simp [List.dropWhile, this]

theorem jsTrim_eq_self (l : List Char) (h : ∀ c ∈ l, isJsSpace c = false) :
    jsTrim l = l := by
  unfold jsTrim
  rw [dropWhile_eq_self_of_not l h, dropWhile_eq_self_of_not l.reverse
    (fun c hc => h c (List.mem_reverse.mp hc)), List.reverse_reverse]

theorem mem_jsTrim {c : Char} {l : List Char} (h : c ∈ jsTrim l) : c ∈ l := by
  unfold jsTrim at h
  rw [List.mem_reverse] at h
  have h1 := (List.dropWhile_sublist (l := (l.dropWhile isJsSpace).reverse)
    (p := isJsSpace)).subset h
  rw [List.mem_reverse] at h1
  exact (List.dropWhile_sublist (l := l) (p := isJsSpace)).subset h1

theorem sanitizeFilename_chars (s : String) :
    ∀ c ∈ (sanitizeFilename s).data,
      isIllegalFilenameChar c = false ∧ isJsSpace c = false := by
  intro c hc
  have hc1 : c ∈ jsTrim (collapseWsAux false
      (s.data.filter fun c => !isIllegalFilenameChar c)) :=
    (List.take_subset 120 _) hc
  have hc2 := mem_jsTrim hc1
  constructor
  · rcases mem_collapseWsAux false _ hc2 with h | h
    · subst h; decide
    · have := List.of_mem_filter h
      simpa using this
  · exact not_space_of_mem_collapseWsAux false _ hc2

theorem sanitizeFilename_length (s : String) :
    (sanitizeFilename s).data.length ≤ 120 := by
  simp [sanitizeFilename]

theorem sanitizeFilename_eq_self (s : String)
    (h : ∀ c ∈ s.data, isIllegalFilenameChar c = false ∧ isJsSpace c = false)
    (hlen : s.data.length ≤ 120) : sanitizeFilename s = s := by
  unfold sanitizeFilename
  have hfilter : s.data.filter (fun c => !isIllegalFilenameChar c) = s.data :=
    List.filter_eq_self.mpr fun c hc => by simp [(h c hc).1]
  rw [hfilter, collapseWsAux_eq_self s.data fun c hc => (h c hc).2,
    jsTrim_eq_self s.data fun c hc => (h c hc).2,
    List.take_of_length_le hlen]

/-- C6: filename sanitization is idempotent — sanitizing an
already-sanitized string returns it unchanged. -/
theorem sanitizeFilename_idempotent (s : String) :
    sanitizeFilename (sanitizeFilename s) = sanitizeFilename s :=
  sanitizeFilename_eq_self _ (sanitizeFilename_chars s) (sanitizeFilename_length s)

/- ── C5: default-pattern filename ── -/

/-- C5 fails as stated: with the default pattern, hostname `example.com`,
title `My Title!` and date `2026-02-17` the code produces
`2026-02-17_example.com_My-Title!.html`, not the claimed
`2026-02-17_example.com_My-Title.html` — `!` is not in the illegal-character
set `<>:"/\|?*` plus controls, so it is kept. -/
theorem buildFilename_default_example_counterexample :
    buildFilename defaultFilenamePattern "" "2026-02-17" 0 "My Title!"
        (some "example.com") "html" =
      "2026-02-17_example.com_My-Title!.html" ∧
    buildFilename defaultFilenamePattern "" "2026-02-17" 0 "My Title!"
        (some "example.com") "html" ≠
      "2026-02-17_example.com_My-Title.html" := by
  constructor
  · rfl
  · decide

/-- C5 (amended): applying the default pattern `{date}_{hostname}_{title}`
with hostname `example.com`, title `My Title!` and date `2026-02-17` yields
`2026-02-17_example.com_My-Title!.<ext>` for every extension and timestamp:
exactly the characters of the code's illegal set (`<>:"/\|?*` and control
characters) are stripped and whitespace runs become single hyphens, so the
legal `!` survives. -/
theorem buildFilename_default_example (ts : ℕ) (ext : String) :
    buildFilename defaultFilenamePattern "" "2026-02-17" ts "My Title!"
        (some "example.com") ext =
      "2026-02-17_example.com_My-Title!." ++ ext ∧
    sanitizeFilename "My Title!" = "My-Title!" := by
  constructor
  · rfl
  · rfl

/- ── C10: buildFilename totality and fallbacks ── -/

/-- C10: `buildFilename` is total — it is a function in the model, defined
for every title and every hostname-parse result.  When the page URL is not a
parseable URL (the `new URL` host primitive throws, modelled as `none`), the
`{hostname}` token resolves to the literal `unknown`; when the title is
empty (falsy), the `{title}` token resolves to `untitled`. -/
theorem buildFilename_total_fallbacks (ts : ℕ) (ext : String) :
    buildFilename defaultFilenamePattern "" "2026-02-17" ts "" none ext =
      "2026-02-17_unknown_untitled." ++ ext := by
  rfl

/- ── C1: compositor height cap, tile drop, clamped paint ── -/

/-- C1: after `stitch-init(viewportWidth, viewportHeight, totalHeight,
pixelScale)` with a nonzero pixel scale (the tile source always supplies
`window.devicePixelRatio || 1`, which is nonzero), the canvas height is
`min(round(totalHeight·pixelScale), 32000)`.  A subsequent
`stitch-add-capture` whose destination offset `round(scrollY·pixelScale)`
is at or beyond the canvas height leaves the composite unchanged and the
handler still acknowledges success; a tile below the bound is painted with
height clamped to `min(tileHeight, canvasHeight − destY)`. -/
theorem stitch_height_cap_and_tile_drop :
    (∀ vw vh th dpr : ℚ, dpr ≠ 0 →
      (stitchInit vw vh th dpr).canvas.height = min (jsRound (th * dpr)) 32000) ∧
    (∀ (s : OffState) (st : StitchState) (img : Img) (y : ℚ),
      s.stitch = some st →
      (st.canvas.height ≤ jsRound (y * st.dpr) →
        stitchAddCapture st img y = st ∧
        (handleOffMsg s (.stitchAddMsg img y) none).2 = .ok) ∧
      (jsRound (y * st.dpr) < st.canvas.height →
        (stitchAddCapture st img y).canvas =
          drawImageAt st.canvas img
            (min img.height (st.canvas.height - jsRound (y * st.dpr)))
            (jsRound (y * st.dpr)))) := by
  constructor
  · intro vw vh th dpr hdpr
    simp [stitchInit, newCanvas, hdpr]
  · intro s st img y hst
    constructor
    · intro hdrop
      constructor
      · unfold stitchAddCapture
        rw [if_neg]
        omega
      · simp [handleOffMsg, hst]
    · intro hpaint
      unfold stitchAddCapture
      rw [if_pos]
      omega

/-- C1 witness: a concrete `stitch-init(100, 50, 200, 2)` gives canvas
height `min(400, 32000)`; a tile at scroll offset 200 (destination 400) is
dropped yet acknowledged; a tile at scroll offset 100 (destination 200) is
painted with clamped height. -/
theorem stitch_height_cap_and_tile_drop_witness :
    (stitchInit 100 50 200 2).canvas.height = min (jsRound (200 * 2)) 32000 ∧
    stitchAddCapture (stitchInit 100 50 200 2) ⟨100, 50, fun _ _ => 7⟩ 200 =
      stitchInit 100 50 200 2 ∧
    (handleOffMsg ⟨none, some (stitchInit 100 50 200 2)⟩
        (.stitchAddMsg ⟨100, 50, fun _ _ => 7⟩ 200) none).2 = .ok ∧
    (stitchAddCapture (stitchInit 100 50 200 2) ⟨100, 50, fun _ _ => 7⟩ 100).canvas =
      drawImageAt (stitchInit 100 50 200 2).canvas ⟨100, 50, fun _ _ => 7⟩
        (min (Img.height ⟨100, 50, fun _ _ => 7⟩)
          ((stitchInit 100 50 200 2).canvas.height - jsRound (100 * 2)))
        (jsRound (100 * 2)) := by
  have h := stitch_height_cap_and_tile_drop
  have h2 := h.2 ⟨none, some (stitchInit 100 50 200 2)⟩ (stitchInit 100 50 200 2)
    ⟨100, 50, fun _ _ => 7⟩ 200 rfl
  have h3 := h.2 ⟨none, some (stitchInit 100 50 200 2)⟩ (stitchInit 100 50 200 2)
    ⟨100, 50, fun _ _ => 7⟩ 100 rfl
  have hdrop := h2.1 (by norm_num [stitchInit, newCanvas, jsRound])
  refine ⟨h.1 100 50 200 2 (by norm_num), hdrop.1, hdrop.2,
    h3.2 (by norm_num [stitchInit, newCanvas, jsRound])⟩

/- ── C3: pagination lemmas ── -/

/-- The band height placed for page `p` in the multi-page loop. -/
def bandHeight (w h : ℤ) (p : ℕ) : ℚ :=
  min (297 / 210 * (w : ℚ)) ((h : ℚ) - (p : ℚ) * (297 / 210 * (w : ℚ)))

theorem pdfStep_foldl (w h : ℤ) :
    ∀ (l : List ℕ) (doc : PdfDoc),
      (l.foldl (pdfStep w h) doc).pages =
        doc.pages + l.countP (fun p => decide (0 < p)) ∧
      (l.foldl (pdfStep w h) doc).bands = doc.bands ++ l.map (bandHeight w h) := by
  intro l
  induction l with
  | nil => intro doc; simp
  | cons a rest ih =>
    intro doc
    rcases ih (pdfStep w h doc a) with ⟨ihp, ihb⟩
    constructor
    · rw [List.foldl_cons, ihp, List.countP_cons]
      by_cases ha : 0 < a <;> (simp [pdfStep, ha]; try omega)
    · rw [List.foldl_cons, ihb, List.map_cons]
      by_cases ha : 0 < a <;> simp [pdfStep, bandHeight, ha]

theorem countP_range_pos :
    ∀ n : ℕ, (List.range n).countP (fun p => decide (0 < p)) = n - 1 := by
  intro n
  induction n with
  | zero => rfl
  | succ n ih =>
    rw [List.range_succ, List.countP_append, ih]
    by_cases hn : 0 < n <;> (simp [List.countP_cons, hn]; omega)

/-- C3: for a composite of positive pixel width and height, the renderer
computes `pdfHeightMm = imageHeight/imageWidth · 210` and produces exactly
`ceil(pdfHeightMm / 297)` pages; the page count is `1` exactly when
`pdfHeightMm ≤ 297`; and in the multi-page case the band of page `p` slices
source height `min(pageHeightPx, imageHeight − p · pageHeightPx)` with
`pageHeightPx = 297/210 · imageWidth`. -/
theorem generatePdf_pagination (w h : ℤ) (hw : 0 < w) (hh : 0 < h) :
    ((generatePdf w h).pages : ℤ) = ⌈(h : ℚ) / (w : ℚ) * 210 / 297⌉ ∧
    ((generatePdf w h).pages = 1 ↔ (h : ℚ) / (w : ℚ) * 210 ≤ 297) ∧
    (1 < ⌈(h : ℚ) / (w : ℚ) * 210 / 297⌉ →
      (generatePdf w h).bands =
        (List.range (generatePdf w h).pages).map (bandHeight w h)) := by
  have hx : 0 < (h : ℚ) / (w : ℚ) * 210 := by positivity
  have hT1 : 1 ≤ ⌈(h : ℚ) / (w : ℚ) * 210 / 297⌉ := by
    have : (0 : ℚ) < (h : ℚ) / (w : ℚ) * 210 / 297 := by positivity
    exact Int.ceil_pos.mpr this
  by_cases hT : ⌈(h : ℚ) / (w : ℚ) * 210 / 297⌉ = 1
  · have hpages : (generatePdf w h).pages = 1 := by
      simp [generatePdf, hT]
    refine ⟨by rw [hpages, hT]; norm_num, ?_, ?_⟩
    · rw [hpages]
      have hle : (h : ℚ) / (w : ℚ) * 210 / 297 ≤ 1 := by
        have := Int.ceil_le.mp (le_of_eq hT)
        exact_mod_cast this
      rw [div_le_one (by norm_num : (0 : ℚ) < 297)] at hle
      simp [hle]
    · intro hgt
      omega
  · have hT2 : 2 ≤ ⌈(h : ℚ) / (w : ℚ) * 210 / 297⌉ := by omega
    have hfold := pdfStep_foldl w h
      (List.range (⌈(h : ℚ) / (w : ℚ) * 210 / 297⌉).toNat) { pages := 1, bands := [] }
    have hpages : (generatePdf w h).pages =
        (⌈(h : ℚ) / (w : ℚ) * 210 / 297⌉).toNat := by
      simp only [generatePdf, hT, if_false]
      rw [hfold.1, countP_range_pos]
      simp only []
      omega
    have hcast : ((⌈(h : ℚ) / (w : ℚ) * 210 / 297⌉).toNat : ℤ) =
        ⌈(h : ℚ) / (w : ℚ) * 210 / 297⌉ := Int.toNat_of_nonneg (by omega)
    refine ⟨by rw [hpages]; exact hcast, ?_, ?_⟩
    · constructor
      · intro h1
        rw [hpages] at h1
        omega
      · intro hle
        exfalso
        have hle1 : ⌈(h : ℚ) / (w : ℚ) * 210 / 297⌉ ≤ 1 := by
          apply Int.ceil_le.mpr
          push_cast
          rw [div_le_one (by norm_num : (0 : ℚ) < 297)]
          exact hle
        omega
    · intro _
      have hbands : (generatePdf w h).bands =
          (List.range (⌈(h : ℚ) / (w : ℚ) * 210 / 297⌉).toNat).map (bandHeight w h) := by
        simp only [generatePdf, hT, if_false]
        rw [hfold.2]
        simp
      rw [hbands, hpages]

/-- C3 witness: a 100 × 300 pixel composite gives `pdfHeightMm = 630`, hence
`ceil(630/297) = 3` pages with the clamped band heights. -/
theorem generatePdf_pagination_witness :
    ((generatePdf 100 300).pages : ℤ) =
      ⌈((100 : ℤ) : ℚ)⁻¹ * ((300 : ℤ) : ℚ) * 210 / 297⌉ ∧
    ((generatePdf 100 300).pages = 1 ↔
      ((300 : ℤ) : ℚ) / ((100 : ℤ) : ℚ) * 210 ≤ 297) ∧
    (1 < ⌈((300 : ℤ) : ℚ) / ((100 : ℤ) : ℚ) * 210 / 297⌉ →
      (generatePdf 100 300).bands =
        (List.range (generatePdf 100 300).pages).map (bandHeight 100 300)) := by
  have := generatePdf_pagination 100 300 (by norm_num) (by norm_num)
  refine ⟨?_, this.2.1, this.2.2⟩
  rw [this.1]
  congr 1
  ring

/- ── C2: capture-loop cycle count and monotone painted offsets ── -/

theorem captureOffsetsLoop_unfold (sh vh y : ℕ) :
    captureOffsetsLoop sh vh y =
      if y < sh ∧ 0 < vh then y :: captureOffsetsLoop sh vh (y + vh) else [] := by
  rw [captureOffsetsLoop]
  simp only [dite_eq_ite]

theorem ceil_div_succ (sh vh y : ℕ) (hvh : 0 < vh) (hy : y < sh) :
    (sh - y + vh - 1) / vh = (sh - (y + vh) + vh - 1) / vh + 1 := by
  have h1 : sh - y + vh - 1 = (sh - y - 1) + vh := by omega
  by_cases hav : vh ≤ sh - y
  · have h2 : sh - (y + vh) + vh - 1 = sh - y - 1 := by omega
    rw [h1, h2, Nat.add_div_right _ hvh]
  · have h2 : sh - (y + vh) = 0 := by omega
    rw [h1, Nat.add_div_right _ hvh, h2]
    have h3 : (0 + vh - 1) / vh = 0 := Nat.div_eq_of_lt (by omega)
    have h4 : (sh - y - 1) / vh = 0 := Nat.div_eq_of_lt (by omega)
    rw [h3, h4]

theorem captureOffsetsLoop_eq (sh vh : ℕ) (hvh : 0 < vh) :
    ∀ (fuel y : ℕ), sh - y ≤ fuel →
      captureOffsetsLoop sh vh y =
        (List.range ((sh - y + vh - 1) / vh)).map (fun i => y + i * vh) := by
  intro fuel
  induction fuel with
  | zero =>
    intro y hy
    rw [captureOffsetsLoop_unfold, if_neg (by omega)]
    have h0 : sh - y = 0 := by omega
    rw [h0]
    have h1 : (0 + vh - 1) / vh = 0 := Nat.div_eq_of_lt (by omega)
    rw [h1]
    rfl
  | succ n ih =>
    intro y hy
    by_cases h : y < sh
    · rw [captureOffsetsLoop_unfold, if_pos ⟨h, hvh⟩, ih (y + vh) (by omega),
        ceil_div_succ sh vh y hvh h, List.range_succ_eq_map, List.map_cons,
        List.map_map]
      congr 1
      · simp
      · apply List.map_congr_left
        intro i _
        simp only [Function.comp_apply, Nat.succ_eq_add_one]
        ring
    · rw [captureOffsetsLoop_unfold, if_neg (by omega)]
      have h0 : sh - y = 0 := by omega
      rw [h0]
      have h1 : (0 + vh - 1) / vh = 0 := Nat.div_eq_of_lt (by omega)
      rw [h1]
      rfl

theorem nat_ceilDiv_cast (a b : ℕ) (ha : 0 < a) (hb : 0 < b) :
    (((a + b - 1) / b : ℕ) : ℤ) = ⌈(a : ℚ) / (b : ℚ)⌉ := by
  have hbq : (0 : ℚ) < (b : ℚ) := by exact_mod_cast hb
  have hdm := Nat.div_add_mod (a + b - 1) b
  have hmod : (a + b - 1) % b < b := Nat.mod_lt _ hb
  have hcm : ((a + b - 1) / b) * b = b * ((a + b - 1) / b) := Nat.mul_comm _ _
  have hq1 : a ≤ ((a + b - 1) / b) * b := by omega
  have hqpos : 1 ≤ (a + b - 1) / b := by
    rw [Nat.le_div_iff_mul_le hb]
    omega
  symm
  apply le_antisymm
  · apply Int.ceil_le.mpr
    rw [div_le_iff₀ hbq]
    push_cast
    exact_mod_cast hq1
  · have hnat : ((a + b - 1) / b - 1) * b < a := by
      have hexp : ((a + b - 1) / b - 1) * b = ((a + b - 1) / b) * b - 1 * b :=
        Nat.sub_mul _ _ _
      omega
    have hlt : (((a + b - 1) / b : ℕ) : ℤ) - 1 < ⌈(a : ℚ) / (b : ℚ)⌉ := by
      rw [Int.lt_ceil, lt_div_iff₀ hbq]
      have hZ : ((((a + b - 1) / b - 1 : ℕ) : ℤ)) =
          (((a + b - 1) / b : ℕ) : ℤ) - 1 := by omega
      rw [← hZ]
      exact_mod_cast hnat
    omega

theorem captureOffsets_painted_chain (sh vh : ℕ) (hvh : 0 < vh) (hsh : vh < sh) :
    ∀ (fuel y : ℕ), sh - y ≤ fuel →
      List.Chain' (· < ·)
        ((captureOffsetsLoop sh vh y).map (scrollToPosition sh vh)) := by
  intro fuel
  induction fuel with
  | zero =>
    intro y hy
    rw [captureOffsetsLoop_unfold, if_neg (by omega)]
    simp
  | succ n ih =>
    intro y hy
    by_cases h : y < sh
    · rw [captureOffsetsLoop_unfold, if_pos ⟨h, hvh⟩, List.map_cons]
      by_cases h2 : y + vh < sh
      · have htail := ih (y + vh) (by omega)
        rw [captureOffsetsLoop_unfold, if_pos ⟨h2, hvh⟩, List.map_cons] at htail ⊢
        refine List.chain'_cons.mpr ⟨?_, htail⟩
        simp only [scrollToPosition]
        omega
      · rw [captureOffsetsLoop_unfold (y := y + vh), if_neg (by omega)]
        simp
    · rw [captureOffsetsLoop_unfold, if_neg (by omega)]
      simp

/-- C2: for scrollHeight > viewportHeight > 0, the capture loop performs
exactly `ceil(scrollHeight / viewportHeight)` scroll-capture cycles,
requesting offsets `0, viewportHeight, 2·viewportHeight, …`, and the actual
(clamped) scroll positions returned by `scroll-to`, at which the tiles are
painted, are strictly increasing. -/
theorem capture_cycle_count_and_monotone (sh vh : ℕ) (hvh : 0 < vh)
    (hsh : vh < sh) :
    captureOffsetsLoop sh vh 0 =
      (List.range ((sh + vh - 1) / vh)).map (fun i => i * vh) ∧
    ((captureOffsetsLoop sh vh 0).length : ℤ) = ⌈(sh : ℚ) / (vh : ℚ)⌉ ∧
    ((captureOffsetsLoop sh vh 0).map (scrollToPosition sh vh)).Pairwise (· < ·) := by
  have hlist := captureOffsetsLoop_eq sh vh hvh sh 0 (by omega)
  have hlist' : captureOffsetsLoop sh vh 0 =
      (List.range ((sh + vh - 1) / vh)).map (fun i => i * vh) := by
    rw [hlist]
    simp
  refine ⟨hlist', ?_, ?_⟩
  · rw [hlist']
    simp only [List.length_map, List.length_range]
    exact nat_ceilDiv_cast sh vh (by omega) hvh
  · rw [← List.chain'_iff_pairwise]
    exact captureOffsets_painted_chain sh vh hvh hsh sh 0 (by omega)

/-- C2 witness: scrollHeight 5, viewportHeight 2 gives `ceil(5/2) = 3`
cycles at requested offsets `[0, 2, 4]`, painted at clamped positions
`[0, 2, 3]`, strictly increasing. -/
theorem capture_cycle_count_and_monotone_witness :
    captureOffsetsLoop 5 2 0 =
      (List.range ((5 + 2 - 1) / 2)).map (fun i => i * 2) ∧
    ((captureOffsetsLoop 5 2 0).length : ℤ) = ⌈(5 : ℚ) / (2 : ℚ)⌉ ∧
    ((captureOffsetsLoop 5 2 0).map (scrollToPosition 5 2)).Pairwise (· < ·) := by
  have := capture_cycle_count_and_monotone 5 2 (by norm_num) (by norm_num)
  exact_mod_cast this

/- ── C4: bounded rate-limit retry ── -/

theorem captureWithRetry_unfold (f : ℕ → CapAttempt) (attempt : ℕ) :
    captureWithRetry f attempt =
      match f attempt with
      | .ok d => { result := .ok d, attempts := attempt + 1, backoffs := attempt }
      | .err m =>
        if attempt < 2 ∧ isRateLimitMsg m then captureWithRetry f (attempt + 1)
        else { result := .error m, attempts := attempt + 1, backoffs := attempt } := by
  rw [captureWithRetry]
  rcases f attempt with d | m
  · rfl
  · simp only [dite_eq_ite]

theorem captureWithRetry_ok (f : ℕ → CapAttempt) (attempt : ℕ) (d : String)
    (h : f attempt = CapAttempt.ok d) :
    captureWithRetry f attempt =
      { result := .ok d, attempts := attempt + 1, backoffs := attempt } := by
  rw [captureWithRetry_unfold, h]

theorem captureWithRetry_retry (f : ℕ → CapAttempt) (attempt : ℕ) (m : String)
    (h : f attempt = CapAttempt.err m) (h2 : attempt < 2)
    (h3 : isRateLimitMsg m = true) :
    captureWithRetry f attempt = captureWithRetry f (attempt + 1) := by
  rw [captureWithRetry_unfold, h]
  simp [h2, h3]

theorem captureWithRetry_fail (f : ℕ → CapAttempt) (attempt : ℕ) (m : String)
    (h : f attempt = CapAttempt.err m)
    (h2 : ¬(attempt < 2 ∧ isRateLimitMsg m = true)) :
    captureWithRetry f attempt =
      { result := .error m, attempts := attempt + 1, backoffs := attempt } := by
  rw [captureWithRetry_unfold, h]
  simp only [if_neg h2]

/-- C4: in the tile-capture retry loop, if every attempt fails with the
rate-limit condition then exactly 3 capture attempts are made (2 backoff
delays) and the third error is propagated; if attempt `k ≤ 2` succeeds after
rate-limited failures, exactly `k + 1` attempts are made and the data URL is
returned; a non-rate-limit failure on the first attempt is propagated after
exactly 1 attempt, without retry. -/
theorem captureWithRetry_spec (f : ℕ → CapAttempt) :
    ((∀ k, k < 3 → ∃ m, f k = CapAttempt.err m ∧ isRateLimitMsg m = true) →
      (captureWithRetry f 0).attempts = 3 ∧ (captureWithRetry f 0).backoffs = 2 ∧
      ∃ m, f 2 = CapAttempt.err m ∧ (captureWithRetry f 0).result = .error m) ∧
    (∀ k d, k ≤ 2 → f k = CapAttempt.ok d →
      (∀ j, j < k → ∃ m, f j = CapAttempt.err m ∧ isRateLimitMsg m = true) →
      (captureWithRetry f 0).result = .ok d ∧
      (captureWithRetry f 0).attempts = k + 1) ∧
    (∀ m, f 0 = CapAttempt.err m → isRateLimitMsg m = false →
      (captureWithRetry f 0).result = .error m ∧
      (captureWithRetry f 0).attempts = 1) := by
  refine ⟨?_, ?_, ?_⟩
  · intro hall
    obtain ⟨m0, hf0, hm0⟩ := hall 0 (by norm_num)
    obtain ⟨m1, hf1, hm1⟩ := hall 1 (by norm_num)
    obtain ⟨m2, hf2, hm2⟩ := hall 2 (by norm_num)
    rw [captureWithRetry_retry f 0 m0 hf0 (by norm_num) hm0,
      captureWithRetry_retry f 1 m1 hf1 (by norm_num) hm1,
      captureWithRetry_fail f 2 m2 hf2 (by norm_num)]
    exact ⟨rfl, rfl, m2, hf2, rfl⟩
  · intro k d hk hfk hprev
    interval_cases k
    · rw [captureWithRetry_ok f 0 d hfk]
      exact ⟨rfl, rfl⟩
    · obtain ⟨m0, hf0, hm0⟩ := hprev 0 (by norm_num)
      rw [captureWithRetry_retry f 0 m0 hf0 (by norm_num) hm0,
        captureWithRetry_ok f 1 d hfk]
      exact ⟨rfl, rfl⟩
    · obtain ⟨m0, hf0, hm0⟩ := hprev 0 (by norm_num)
      obtain ⟨m1, hf1, hm1⟩ := hprev 1 (by norm_num)
      rw [captureWithRetry_retry f 0 m0 hf0 (by norm_num) hm0,
        captureWithRetry_retry f 1 m1 hf1 (by norm_num) hm1,
        captureWithRetry_ok f 2 d hfk]
      exact ⟨rfl, rfl⟩
  · intro m hf0 hm0
    rw [captureWithRetry_fail f 0 m hf0 (by simp [hm0])]
    exact ⟨rfl, rfl⟩

/-- C4 witness: an always-rate-limited oracle makes 3 attempts then fails;
an oracle succeeding on its second attempt makes 2; a first-attempt
non-rate-limit error makes 1. -/
theorem captureWithRetry_spec_witness :
    ((captureWithRetry (fun _ => CapAttempt.err rateLimitToken) 0).attempts = 3 ∧
      (captureWithRetry (fun _ => CapAttempt.err rateLimitToken) 0).backoffs = 2 ∧
      ∃ m, (fun _ : ℕ => CapAttempt.err rateLimitToken) 2 = CapAttempt.err m ∧
        (captureWithRetry (fun _ => CapAttempt.err rateLimitToken) 0).result =
          .error m) ∧
    ((captureWithRetry
        (fun k => if k = 0 then CapAttempt.err rateLimitToken
          else CapAttempt.ok "tile") 0).result = .ok "tile" ∧
      (captureWithRetry
        (fun k => if k = 0 then CapAttempt.err rateLimitToken
          else CapAttempt.ok "tile") 0).attempts = 2) ∧
    ((captureWithRetry (fun _ => CapAttempt.err "boom") 0).result =
        .error "boom" ∧
      (captureWithRetry (fun _ => CapAttempt.err "boom") 0).attempts = 1) := by
  refine ⟨?_, ?_, ?_⟩
  · exact (captureWithRetry_spec (fun _ => CapAttempt.err rateLimitToken)).1
      (fun k _ => ⟨rateLimitToken, rfl, by decide⟩)
  · exact (captureWithRetry_spec
      (fun k => if k = 0 then CapAttempt.err rateLimitToken
        else CapAttempt.ok "tile")).2.1 1 "tile" (by norm_num) rfl
      (fun j hj => by
        interval_cases j
        exact ⟨rateLimitToken, rfl, by decide⟩)
  · exact (captureWithRetry_spec (fun _ => CapAttempt.err "boom")).2.2 "boom"
      rfl (by decide)

/- ── C9: generate-pdf empties the cached-screenshot slot ── -/

theorem cached_none_preserved (s : OffState) (m : OffMsg) (e : Option String)
    (hs : s.cached = none) (hm : isCaptureMsg m = false) :
    (handleOffMsg s m e).1.cached = none := by
  cases e with
  | some e => simp [handleOffMsg]
  | none =>
    cases m with
    | stitchInitMsg vw vh th dpr => simpa [handleOffMsg] using hs
    | stitchAddMsg img y =>
      cases hst : s.stitch with
      | some st => simpa [handleOffMsg, hst] using hs
      | none => simp [handleOffMsg, hst]
    | stitchFinalizeMsg => simp [isCaptureMsg] at hm
    | cacheScreenshotMsg img => simp [isCaptureMsg] at hm
    | generatePdfMsg t u =>
      cases hc : s.cached with
      | some img => simp [handleOffMsg, hc]
      | none => simp [handleOffMsg, hc]

theorem runOffMsgs_cached_none (msgs : List (OffMsg × Option String))
    (hmsgs : ∀ p ∈ msgs, isCaptureMsg p.1 = false) :
    ∀ s : OffState, s.cached = none → (runOffMsgs s msgs).cached = none := by
  induction msgs with
  | nil => intro s hs; exact hs
  | cons p rest ih =>
    intro s hs
    rcases p with ⟨m, e⟩
    rw [runOffMsgs]
    exact ih (fun q hq => hmsgs q (List.mem_cons_of_mem _ hq)) _
      (cached_none_preserved s m e hs
        (hmsgs ⟨m, e⟩ (List.mem_cons_self _ _)))

/-- C9: every `generate-pdf` request leaves the offscreen document's cached
screenshot slot empty — both when a document is produced and when the
handler replies with an error (injected exception) — and a second
`generate-pdf` with no intervening `stitch-finalize` or `cache-screenshot`
produces the text-only fallback document. -/
theorem generatePdf_clears_cache :
    (∀ (s : OffState) (t u : String) (e : Option String),
      (handleOffMsg s (.generatePdfMsg t u) e).1.cached = none) ∧
    (∀ (s : OffState) (t u : String) (e : Option String)
        (msgs : List (OffMsg × Option String)),
      (∀ p ∈ msgs, isCaptureMsg p.1 = false) →
      ∀ t' u',
        (handleOffMsg
            (runOffMsgs (handleOffMsg s (.generatePdfMsg t u) e).1 msgs)
            (.generatePdfMsg t' u') none).2 =
          .pdfHandle (.textPdf t' u')) := by
  have hclear : ∀ (s : OffState) (t u : String) (e : Option String),
      (handleOffMsg s (.generatePdfMsg t u) e).1.cached = none := by
    intro s t u e
    cases e with
    | some e => simp [handleOffMsg]
    | none =>
      cases hc : s.cached with
      | some img => simp [handleOffMsg, hc]
      | none => simp [handleOffMsg, hc]
  refine ⟨hclear, ?_⟩
  intro s t u e msgs hmsgs t' u'
  have hnone : (runOffMsgs (handleOffMsg s (.generatePdfMsg t u) e).1 msgs).cached =
      none := runOffMsgs_cached_none msgs hmsgs _ (hclear s t u e)
  generalize hgen : runOffMsgs (handleOffMsg s (.generatePdfMsg t u) e).1 msgs = S
    at hnone ⊢
  simp [handleOffMsg, hnone]

/-- C9 witness: starting from a state holding a cached screenshot, one
`generate-pdf` empties the slot, and after an intervening `stitch-init`
(not a capture message) a second `generate-pdf` yields the text fallback. -/
theorem generatePdf_clears_cache_witness :
    (handleOffMsg ⟨some ⟨8, 8, fun _ _ => 1⟩, none⟩
        (.generatePdfMsg "T" "U") none).1.cached = none ∧
    (handleOffMsg
        (runOffMsgs (handleOffMsg ⟨some ⟨8, 8, fun _ _ => 1⟩, none⟩
            (.generatePdfMsg "T" "U") none).1
          [(.stitchInitMsg 4 4 4 1, none)])
        (.generatePdfMsg "T2" "U2") none).2 =
      .pdfHandle (.textPdf "T2" "U2") := by
  refine ⟨generatePdf_clears_cache.1 _ "T" "U" none, ?_⟩
  exact generatePdf_clears_cache.2 ⟨some ⟨8, 8, fun _ _ => 1⟩, none⟩ "T" "U" none
    [(.stitchInitMsg 4 4 4 1, none)]
    (by intro p hp; simp at hp; rw [hp]; rfl) "T2" "U2"

/- ── C7: the final scroll-back is not protected by a catch ── -/

/-- An environment whose stitch-init, scroll-capture loop (scroll calls 0
and 1) and stitch-add sends for a 2-viewport page all succeed, but whose
third scroll call — the scroll back to the top after the last tile —
rejects. -/
def envScrollFail : CapEnv :=
  { scrollResp := fun i y => if i = 2 then .error "scroll failed" else .ok (min y 1)
    capResp := fun _ => .ok "tile"
    initResp := .ok ()
    addResp := fun _ => .ok ()
    cacheResp := .ok ()
    finalizeResp := .ok "blob:composite" }

/-- The same environment with the final scroll succeeding. -/
def envScrollOk : CapEnv :=
  { scrollResp := fun _ y => .ok (min y 1)
    capResp := fun _ => .ok "tile"
    initResp := .ok ()
    addResp := fun _ => .ok ()
    cacheResp := .ok ()
    finalizeResp := .ok "blob:composite" }

/-- C7 fails as stated: the final `scroll-to` back to the top is awaited
with no `try`/`catch`, so its rejection is not ignored — it changes the
outcome of the screenshot capture from success to failure.  With identical
tile capture and stitch behaviour, a failing final scroll makes
`captureFullPageScreenshot` reject while a succeeding one resolves. -/
theorem capture_scrollback_counterexample :
    captureFullPageScreenshot envScrollFail 2 1 = .error "scroll failed" ∧
    captureFullPageScreenshot envScrollOk 2 1 = .ok [0, 1] := by
  constructor <;>
    simp [captureFullPageScreenshot, capPass, captureWithRetry,
      envScrollFail, envScrollOk]

/-- C7 (amended): after the last tile has been captured, the capturer does
command a scroll back to the top (the next scroll call, index `si`,
requesting offset 0), but this cleanup is not best-effort: a rejection of
the final scroll-to propagates out of `captureFullPageScreenshot` (the
stitch is never finalized), failing the screenshot capture, while its
success — together with a succeeding awaited `stitch-finalize` — yields the
captured tiles. -/
theorem capture_scrollback_propagates (env : CapEnv) (sh vh si ci : ℕ)
    (painted : List ℕ) (hsh : vh < sh) (hinit : env.initResp = .ok ())
    (hloop : capPass env sh vh 0 0 0 = .ok (si, ci, painted)) :
    (∀ e, env.scrollResp si 0 = .error e →
      captureFullPageScreenshot env sh vh = .error e) ∧
    (∀ v b, env.scrollResp si 0 = .ok v → env.finalizeResp = .ok b →
      captureFullPageScreenshot env sh vh = .ok painted) := by
  constructor
  · intro e he
    unfold captureFullPageScreenshot
    rw [if_neg (by omega), hinit, hloop]
    simp [he]
  · intro v b hv hfin
    unfold captureFullPageScreenshot
    rw [if_neg (by omega), hinit, hloop]
    simp [hv, hfin]

/-- C7 witness: the amended theorem applied to the concrete failing
environment — stitch-init and the loop succeed with tiles painted at
`[0, 1]`, the third scroll call requests offset 0 and rejects, and the
capture fails. -/
theorem capture_scrollback_propagates_witness :
    1 < 2 ∧ envScrollFail.initResp = .ok () ∧
    capPass envScrollFail 2 1 0 0 0 = .ok (2, 2, [0, 1]) ∧
    envScrollFail.scrollResp 2 0 = .error "scroll failed" ∧
    captureFullPageScreenshot envScrollFail 2 1 = .error "scroll failed" := by
  have hloop : capPass envScrollFail 2 1 0 0 0 = .ok (2, 2, [0, 1]) := by
    simp [capPass, captureWithRetry, envScrollFail]
  refine ⟨by norm_num, rfl, hloop, rfl, ?_⟩
  exact (capture_scrollback_propagates envScrollFail 2 1 2 2 [0, 1]
    (by norm_num) rfl hloop).1 "scroll failed" rfl

/- ── C8: download-failure downgrade ── -/

/-- How a result entry can change across the download loop: it stays as it
is, or it is downgraded in place — success flips from `true` to `false` and
a reason is appended to its label. -/
def entryEvolves (a b : ArchiveEntry) : Prop :=
  b = a ∨ (∃ suffix, b.label = a.label ++ suffix ∧ b.success = false ∧
    a.success = true)

theorem entryEvolves_trans (a b c : ArchiveEntry)
    (h1 : entryEvolves a b) (h2 : entryEvolves b c) : entryEvolves a c := by
  rcases h1 with rfl | ⟨s1, hb1, hb2, hb3⟩
  · exact h2
  · rcases h2 with rfl | ⟨s2, hc1, hc2, hc3⟩
    · exact Or.inr ⟨s1, hb1, hb2, hb3⟩
    · rw [hb2] at hc3
      exact absurd hc3 (by simp)

theorem forall₂_entryEvolves_trans :
    ∀ {l m n : List ArchiveEntry}, List.Forall₂ entryEvolves l m →
      List.Forall₂ entryEvolves m n → List.Forall₂ entryEvolves l n := by
  intro l m n h1
  induction h1 generalizing n with
  | nil =>
    intro h2
    cases h2
    exact List.Forall₂.nil
  | cons hab htail ih =>
    intro h2
    cases h2 with
    | cons hbc htail2 =>
      exact List.Forall₂.cons (entryEvolves_trans _ _ _ hab hbc) (ih htail2)

theorem forall₂_entryEvolves_refl (l : List ArchiveEntry) :
    List.Forall₂ entryEvolves l l :=
  List.forall₂_same.mpr fun _ _ => Or.inl rfl

theorem downgradeFirst_forall₂ (basename reason : String) :
    ∀ l : List ArchiveEntry,
      List.Forall₂ entryEvolves l (downgradeFirst basename reason l) := by
  intro l
  induction l with
  | nil => exact List.Forall₂.nil
  | cons r rest ih =>
    rw [downgradeFirst]
    by_cases hc : (strIncludes r.label basename && r.success) = true
    · rw [if_pos hc]
      refine List.Forall₂.cons ?_ (forall₂_entryEvolves_refl rest)
      exact Or.inr ⟨reason, rfl, rfl, (Bool.and_eq_true _ _).mp hc |>.2⟩
    · rw [if_neg hc]
      exact List.Forall₂.cons (Or.inl rfl) ih

theorem downloadLoop_forall₂ :
    ∀ (files : List (String × Option String)) (results : List ArchiveEntry),
      List.Forall₂ entryEvolves results (downloadLoop results files) := by
  intro files
  induction files with
  | nil => intro results; exact forall₂_entryEvolves_refl results
  | cons f rest ih =>
    intro results
    rcases f with ⟨name, outcome⟩
    cases outcome with
    | none =>
      rw [downloadLoop]
      exact ih results
    | some e =>
      rw [downloadLoop]
      exact forall₂_entryEvolves_trans
        (downgradeFirst_forall₂ (basenameOf name)
          (" (download failed: " ++ e ++ ")") _) (ih _)

/-- C8 fails as stated: with subfolder `x.png`, the HTML entry's label
`HTML — x.png/x.html` contains the basename `x.png` of the PNG file, and
`results.find` returns it first; when the PNG download fails, the HTML
entry is downgraded instead, and the failed PNG artifact's entry is left
marked successful. -/
theorem download_downgrade_counterexample :
    downloadLoop
        [⟨"HTML — x.png/x.html", true⟩, ⟨"PNG — x.png/x.png", true⟩]
        [("x.png/x.html", none), ("x.png/x.png", some "boom")] =
      [⟨"HTML — x.png/x.html (download failed: boom)", false⟩,
        ⟨"PNG — x.png/x.png", true⟩] ∧
    (downloadLoop
        [⟨"HTML — x.png/x.html", true⟩, ⟨"PNG — x.png/x.png", true⟩]
        [("x.png/x.html", none), ("x.png/x.png", some "boom")]).get?
      1 = some ⟨"PNG — x.png/x.png", true⟩ := by
  constructor
  · rfl
  · rfl

/-- C8 (amended): a download failure downgrades, in place, the first
still-successful entry whose label contains the failed file's basename —
appending the failure reason and flipping success to false — and skips
non-matching or already-failed entries; no entry is ever removed (the
result list keeps its length), and every entry either survives unchanged or
is downgraded from a recorded success.  The downgraded entry is usually the
failed artifact's own, but not always: an earlier entry whose label happens
to contain the basename (e.g. through a subfolder named like the file) is
downgraded instead, leaving the failed artifact's entry successful. -/
theorem download_failure_downgrades
    (results : List ArchiveEntry) (files : List (String × Option String)) :
    (downloadLoop results files).length = results.length ∧
    List.Forall₂ entryEvolves results (downloadLoop results files) ∧
    (∀ (basename reason : String) (r : ArchiveEntry)
        (rest : List ArchiveEntry),
      strIncludes r.label basename = true → r.success = true →
      downgradeFirst basename reason (r :: rest) =
        ⟨r.label ++ reason, false⟩ :: rest) ∧
    (∀ (basename reason : String) (r : ArchiveEntry)
        (rest : List ArchiveEntry),
      ¬(strIncludes r.label basename = true ∧ r.success = true) →
      downgradeFirst basename reason (r :: rest) =
        r :: downgradeFirst basename reason rest) := by
  refine ⟨(downloadLoop_forall₂ files results).length_eq.symm,
    downloadLoop_forall₂ files results, ?_, ?_⟩
  · intro basename reason r rest hr hs
    rw [downgradeFirst, if_pos (by rw [hr, hs]; rfl)]
  · intro basename reason r rest hr
    rw [downgradeFirst, if_neg (by simpa [Bool.and_eq_true] using hr)]

/-- C8 witness: the amended theorem applied to the counterexample's
concrete lists and to a matching head entry. -/
theorem download_failure_downgrades_witness :
    (downloadLoop
        [⟨"HTML — x.png/x.html", true⟩, ⟨"PNG — x.png/x.png", true⟩]
        [("x.png/x.html", none), ("x.png/x.png", some "boom")]).length =
      ([⟨"HTML — x.png/x.html", true⟩,
        (⟨"PNG — x.png/x.png", true⟩ : ArchiveEntry)]).length ∧
    downgradeFirst "x.png" " (download failed: boom)"
        [⟨"HTML — x.png/x.html", true⟩] =
      [⟨"HTML — x.png/x.html (download failed: boom)", false⟩] := by
  constructor
  · exact (download_failure_downgrades
      [⟨"HTML — x.png/x.html", true⟩, ⟨"PNG — x.png/x.png", true⟩]
      [("x.png/x.html", none), ("x.png/x.png", some "boom")]).1
  · exact (download_failure_downgrades [] []).2.2.1 "x.png"
      " (download failed: boom)" ⟨"HTML — x.png/x.html", true⟩ []
      (by decide) rfl

end WebpageArchiver
